import Mathlib

/-!
Shallow embedding of `src/validate_waf.py`: the template rule parser, the
normalization helpers, the per-document validator and the batch runner.
Python strings are modelled as Lean `String`s restricted to their character
data; Python's default whitespace set and ASCII case folding are modelled
explicitly below.  YAML values are modelled by the inductive type `Yaml`;
Python `dict`s become insertion-ordered association lists.
-/

namespace WafValidate

/-- ASCII whitespace, the characters `str.strip()` and `\s` recognise
(restricted to the ASCII range). -/
def isWS (c : Char) : Bool :=
  decide (c.toNat = 32 ∨ c.toNat = 9 ∨ c.toNat = 10 ∨
          c.toNat = 13 ∨ c.toNat = 11 ∨ c.toNat = 12)

/-- ASCII lower-casing of one character, as `str.lower()` does on ASCII. -/
def lowerChar (c : Char) : Char :=
  if 65 ≤ c.toNat ∧ c.toNat ≤ 90 then Char.ofNat (c.toNat + 32) else c

/-- Identifier characters of the template pattern `[A-Za-z0-9_]`. -/
def isIdentChar (c : Char) : Bool :=
  decide ((48 ≤ c.toNat ∧ c.toNat ≤ 57) ∨ (65 ≤ c.toNat ∧ c.toNat ≤ 90) ∨
          (97 ≤ c.toNat ∧ c.toNat ≤ 122) ∨ c.toNat = 95)

def stripLeft (l : List Char) : List Char := l.dropWhile isWS

def stripRight (l : List Char) : List Char := (l.reverse.dropWhile isWS).reverse

def stripChars (l : List Char) : List Char := stripRight (stripLeft l)

/-- Python `s.strip()` (both ends, default whitespace). -/
def pyStrip (s : String) : String := ⟨stripChars s.data⟩

/-- Python `s.lower()` (ASCII model). -/
def pyLower (s : String) : String := ⟨s.data.map lowerChar⟩

def digitChar (n : Nat) : Char := Char.ofNat (48 + n)

/-- Decimal digits, most significant first, with structural fuel (the fuel
`n + 1` always suffices, as the digit count of `n` is at most `n + 1`). -/
def natCharsAux : Nat → Nat → List Char
  | 0, _ => []
  | fuel + 1, n =>
      if n < 10 then [digitChar n]
      else natCharsAux fuel (n / 10) ++ [digitChar (n % 10)]

/-- Decimal digits of a natural number, most significant first. -/
def natChars (n : Nat) : List Char := natCharsAux (n + 1) n

/-- Python `str(i)` for an integer. -/
def pyStrInt (i : Int) : String :=
  if i < 0 then ⟨'-' :: natChars i.natAbs⟩ else ⟨natChars i.toNat⟩

/-- YAML values as `yaml.safe_load` can produce them, plus the tuple/set
shapes the Python validator's `isinstance` tests distinguish. -/
inductive Yaml where
  | null
  | bool (b : Bool)
  | int (n : Int)
  | str (s : String)
  | list (xs : List Yaml)
  | tuple (xs : List Yaml)
  | set (xs : List Yaml)
  | dict (kvs : List (String × Yaml))

mutual

/-- Python `repr(v)` (best-effort model: strings always use single quotes,
set/dict iteration follows our list order). -/
def pyRepr : Yaml → String
  | .null => "None"
  | .bool b => if b then "True" else "False"
  | .int n => pyStrInt n
  | .str s => "'" ++ s ++ "'"
  | .list xs => "[" ++ String.intercalate ", " (pyReprList xs) ++ "]"
  | .tuple [x] => "(" ++ pyRepr x ++ ",)"
  | .tuple xs => "(" ++ String.intercalate ", " (pyReprList xs) ++ ")"
  | .set [] => "set()"
  | .set xs => "\x7b" ++ String.intercalate ", " (pyReprList xs) ++ "\x7d"
  | .dict kvs => "\x7b" ++ String.intercalate ", " (pyReprDict kvs) ++ "\x7d"

def pyReprList : List Yaml → List String
  | [] => []
  | x :: xs => pyRepr x :: pyReprList xs

def pyReprDict : List (String × Yaml) → List String
  | [] => []
  | (k, v) :: kvs => ("'" ++ k ++ "': " ++ pyRepr v) :: pyReprDict kvs

end

/-- Python `str(v)`: identity on strings, `repr` otherwise. -/
def pyStr : Yaml → String
  | .str s => s
  | v => pyRepr v

/-- `has_value` from `validate_waf.py`: None is absent; strings must be
non-blank after stripping; containers must be non-empty; everything else
counts as present. -/
def has_value : Yaml → Bool
  | .null => false
  | .str s => !(pyStrip s == "")
  | .list xs => !xs.isEmpty
  | .tuple xs => !xs.isEmpty
  | .set xs => !xs.isEmpty
  | .dict kvs => !kvs.isEmpty
  | _ => true

/-- `allows_blank_value` from `validate_waf.py`. -/
def allows_blank_value (key : String) (value : Yaml) : Bool :=
  if !(key == "end_date") then false
  else
    match value with
    | .null => true
    | .str s =>
        let stripped := pyLower (pyStrip s)
        stripped == "" || stripped == "null"
    | _ => false

/-- `normalize_scalar` from `validate_waf.py`.  The Python function tests
`str`, then `bool` (before `int`, as `bool` subclasses `int`), then
`int`/`float`, then `None`, falling back to `str(value).strip().lower()`. -/
def normalize_scalar : Yaml → String
  | .str s => pyLower (pyStrip s)
  | .bool b => if b then "true" else "false"
  | .int n => pyStrInt n
  | .null => "null"
  | v => pyLower (pyStrip (pyStr v))

/-- First-match lookup in an insertion-ordered association list
(Python `dict.get` / `dict.__contains__`). -/
def lookupA {α : Type} : List (String × α) → String → Option α
  | [], _ => none
  | (k, v) :: rest, key => if k == key then some v else lookupA rest key

/-- Python `d[k] = v`: update in place if present, else append. -/
def setA {α : Type} : List (String × α) → String → α → List (String × α)
  | [], key, v => [(key, v)]
  | (k, w) :: rest, key, v =>
      if k == key then (k, v) :: rest else (k, w) :: setA rest key v

def keysA {α : Type} (m : List (String × α)) : List String := m.map Prod.fst

/-- Python `nested.setdefault(parent, {})[child] = status`. -/
def setNested (m : List (String × List (String × String))) (parent child status : String) :
    List (String × List (String × String)) :=
  match lookupA m parent with
  | some inner => setA m parent (setA inner child status)
  | none => m ++ [(parent, [(child, status)])]

/-- The hard-coded soft-warning key set `OPTIONAL_WARN_KEYS`. -/
def OPTIONAL_WARN_KEYS : List String := ["labels", "specs", "epic_resources"]

/-- `validate_string_list` from `validate_waf.py`. -/
def validate_string_list (field_name : String) (value : Yaml)
    (allowed_values : List String) (source_description : String) : List String :=
  match value with
  | .null => ["Missing or empty mandatory key '" ++ field_name ++ "'"]
  | .list xs =>
      (xs.enum.map fun (idx, entry) =>
        match entry with
        | .str s =>
            if pyStrip s == "" then
              ["'" ++ field_name ++ "' entry " ++ pyStrInt idx ++
               " must be a non-empty string"]
            else if allowed_values.contains (pyStrip s) then []
            else
              ["'" ++ field_name ++ "' entry '" ++ pyStrip s ++ "' (index " ++
               pyStrInt idx ++ ") is not defined in " ++ source_description]
        | _ =>
            ["'" ++ field_name ++ "' entry " ++ pyStrInt idx ++
             " must be a non-empty string"]).flatten
  | _ => ["Key '" ++ field_name ++ "' must be a list"]

/-- Lexicographic boolean order on strings by code point, modelling how
Python `sorted` orders the allow-list strings. -/
def strLeB : List Char → List Char → Bool
  | [], _ => true
  | _ :: _, [] => false
  | a :: as, b :: bs =>
      if a.toNat < b.toNat then true
      else if b.toNat < a.toNat then false
      else strLeB as bs

/-- Insertion sort of strings, modelling Python `sorted` on a set of strings. -/
def insortStr (s : String) : List String → List String
  | [] => [s]
  | t :: ts => if strLeB s.data t.data then s :: t :: ts else t :: insortStr s ts

def sortStrs (l : List String) : List String := l.foldr insortStr []

/-- `validate_allowed_value` from `validate_waf.py`. -/
def validate_allowed_value (key : String) (value : Yaml)
    (allowed_values : List String) : List String :=
  match value with
  | .null => []
  | .list _ => ["Value for '" ++ key ++ "' must be a scalar"]
  | .tuple _ => ["Value for '" ++ key ++ "' must be a scalar"]
  | .set _ => ["Value for '" ++ key ++ "' must be a scalar"]
  | .dict _ => ["Value for '" ++ key ++ "' must be a scalar"]
  | v =>
      if allowed_values.contains (normalize_scalar v) then []
      else
        ["Value '" ++ pyStr v ++ "' for '" ++ key ++ "' must be one of: " ++
         String.intercalate ", " (sortStrs allowed_values)]

/-- `validate_nested` from `validate_waf.py`. -/
def validate_nested (parent : String) (value : Yaml)
    (rules : List (String × String)) : List String :=
  match value with
  | .null => ["Key '" ++ parent ++ "' must not be empty"]
  | .list xs =>
      if xs.isEmpty then ["Key '" ++ parent ++ "' must contain at least one entry"]
      else
        (xs.enum.map fun (idx, item) =>
          match item with
          | .dict kvs =>
              (rules.map fun (nested_key, nested_status) =>
                if !(nested_status == "mandatory") then []
                else if has_value ((lookupA kvs nested_key).getD .null) then []
                else
                  ["Entry " ++ pyStrInt idx ++ " under '" ++ parent ++
                   "' is missing mandatory key '" ++ nested_key ++ "'"]).flatten
          | _ => ["Entry " ++ pyStrInt idx ++ " under '" ++ parent ++
                  "' must be an object"]).flatten
  | .dict kvs =>
      (rules.map fun (nested_key, nested_status) =>
        if !(nested_status == "mandatory") then []
        else if has_value ((lookupA kvs nested_key).getD .null) then []
        else
          ["Key '" ++ parent ++ "' is missing nested key '" ++ nested_key ++ "'"]).flatten
  | _ => ["Key '" ++ parent ++ "' must be a list or mapping"]

/-- One iteration of `validate_document`'s loop over the top-level rules:
given the document mapping and one `(key, status)` rule, the error and
warning messages that iteration appends. -/
def validateKey (kvs : List (String × Yaml))
    (nested_rules : List (String × List (String × String)))
    (rule : String × String) : List String × List String :=
  let key := rule.1
  let status := rule.2
  let mem := (lookupA kvs key).isSome
  let value := (lookupA kvs key).getD .null
  let value_present := mem && has_value value
  if status == "mandatory" && !value_present then
    if OPTIONAL_WARN_KEYS.contains key then
      ([], ["Optional key '" ++ key ++ "' is missing or empty"])
    else if !mem || !allows_blank_value key value then
      (["Missing or empty mandatory key '" ++ key ++ "'"], [])
    else ([], [])
  else
    match lookupA nested_rules key with
    | some rules => if mem then (validate_nested key value rules, []) else ([], [])
    | none => ([], [])

/-- `validate_document` from `validate_waf.py`. -/
def validate_document (content : Yaml) (top_level_rules : List (String × String))
    (nested_rules : List (String × List (String × String))) :
    List String × List String :=
  match content with
  | .dict kvs =>
      top_level_rules.foldl
        (fun acc rule =>
          let step := validateKey kvs nested_rules rule
          (acc.1 ++ step.1, acc.2 ++ step.2))
        ([], [])
  | _ => (["Document root must be a mapping"], [])

/-- The regex `^([A-Za-z0-9_]+)\s*:\s*(mandatory|optional)\s*$` with
`re.IGNORECASE`, applied to an already-stripped line; returns the key and
the lower-cased status word.  The greedy identifier run is the only
possible match, since an identifier character can neither start `\s*` nor
be `:`. -/
def matchStatus (s : String) : Option (String × String) :=
  let cs := s.data
  let ident := cs.takeWhile isIdentChar
  let rest := cs.dropWhile isIdentChar
  if ident.isEmpty then none
  else
    match rest.dropWhile isWS with
    | ':' :: rest2 =>
        let body := (rest2.dropWhile isWS).map lowerChar
        if body.take 9 == "mandatory".data && (body.drop 9).all isWS then
          some (⟨ident⟩, "mandatory")
        else if body.take 8 == "optional".data && (body.drop 8).all isWS then
          some (⟨ident⟩, "optional")
        else none
    | _ => none

/-- `len(raw_line) - len(raw_line.lstrip())`: the leading-whitespace width. -/
def indentOf (s : String) : Nat := (s.data.takeWhile isWS).length

/-- Parser state of `parse_template`'s loop: the two rule tables under
construction plus the current parent and current list parent. -/
structure PState where
  top : List (String × String)
  nested : List (String × List (String × String))
  parent : Option String
  listParent : Option String

def initPState : PState := ⟨[], [], none, none⟩

/-- Python `stripped.startswith("- ")`. -/
def startsDash (s : String) : Bool :=
  match s.data with
  | '-' :: ' ' :: _ => true
  | _ => false

/-- Python `stripped[2:]`. -/
def dropTwo (s : String) : String := ⟨s.data.drop 2⟩

/-- Attach one non-top-level line to the given active parent: a list-item
line adds a nested rule and marks the list parent, a plain matching line
adds a nested rule, anything else is skipped. -/
def pstepAttach (st : PState) (stripped parent : String) : PState :=
  if startsDash stripped then
    match matchStatus (pyStrip (dropTwo stripped)) with
    | some (k, s) =>
        { st with nested := setNested st.nested parent k s,
                  listParent := some parent }
    | none => st
  else
    match matchStatus stripped with
    | some (k, s) => { st with nested := setNested st.nested parent k s }
    | none => st

/-- The handling of a line that did not become a top-level rule: attach it
to the active parent (list parent first), if any. -/
def pstepIndented (st : PState) (stripped : String) : PState :=
  match st.listParent.orElse (fun _ => st.parent) with
  | none => st
  | some parent => pstepAttach st stripped parent

/-- One iteration of `parse_template`'s loop over the template lines. -/
def pstep (st : PState) (raw : String) : PState :=
  if pyStrip raw == "" then st
  else if indentOf raw == 0 then
    match matchStatus (pyStrip raw) with
    | some (key, status) => ⟨setA st.top key status, st.nested, some key, none⟩
    | none => pstepIndented st (pyStrip raw)
  else pstepIndented st (pyStrip raw)

/-- `parse_template` from `validate_waf.py`, over the file's lines. -/
def parse_template (lines : List String) :
    List (String × String) × List (String × List (String × String)) :=
  let final := lines.foldl pstep initPState
  (final.top, final.nested)

/-- The per-key normalized allow-list set built by `load_validations`
(line 159): `{normalize_scalar(entry) for entry in values if
has_value(entry) or entry is None}`, as a dedup-keeping list. -/
def normalizedAllowSet (entries : List Yaml) : List String :=
  entries.foldl
    (fun acc e =>
      let keep := has_value e || (match e with | .null => true | _ => false)
      if keep then
        let n := normalize_scalar e
        if acc.contains n then acc else acc ++ [n]
      else acc)
    []

/-- The static configuration `main` loads before the batch loop. -/
structure Config where
  allowed_labels : List String
  validations : List (String × List String)
  allowed_epic_resources : List String

/-- The per-document portion of `main`'s batch loop: `validate_document`
followed by the labels, scalar allow-list and epic_resources checks.
`Except.error` models the uncaught `AttributeError` Python raises at
`document.get("labels")` when the parsed document is not a mapping. -/
def docChecks (top_level_rules : List (String × String))
    (nested_rules : List (String × List (String × String)))
    (cfg : Config) (document : Yaml) :
    Except Unit (List String × List String) :=
  match document with
  | .dict kvs =>
      let vd := validate_document (.dict kvs) top_level_rules nested_rules
      let failures := vd.1
      let labels_value := (lookupA kvs "labels").getD .null
      let failures :=
        if has_value labels_value then
          failures ++ validate_string_list "labels" labels_value
            cfg.allowed_labels "labels.yml"
        else failures
      let failures :=
        (["impact", "active", "kql_check"].foldl
          (fun acc key =>
            if (lookupA kvs key).isSome then
              acc ++ validate_allowed_value key ((lookupA kvs key).getD .null)
                ((lookupA cfg.validations key).getD [])
            else acc)
          failures)
      let resources_value := (lookupA kvs "epic_resources").getD .null
      let failures :=
        if has_value resources_value then
          failures ++ validate_string_list "epic_resources" resources_value
            cfg.allowed_epic_resources "epic_resources.yml"
        else failures
      .ok (failures, vd.2)
  | _ => .error ()

/-- One file of the batch loop: a parse failure prints a FAIL line and adds
one error; a parsed document contributes its failure count (or the crash). -/
def fileOutcome (top_level_rules : List (String × String))
    (nested_rules : List (String × List (String × String)))
    (cfg : Config) : Except Unit Yaml → Except Unit Nat
  | .error _ => .ok 1
  | .ok d => (docChecks top_level_rules nested_rules cfg d).map fun r => r.1.length

/-- The total error count accumulated by `main`'s loop over the files, or
the crash if some non-mapping document is reached. -/
def batchTotal (top_level_rules : List (String × String))
    (nested_rules : List (String × List (String × String)))
    (cfg : Config) : List (Except Unit Yaml) → Except Unit Nat
  | [] => .ok 0
  | f :: fs =>
      match fileOutcome top_level_rules nested_rules cfg f with
      | .error e => .error e
      | .ok n =>
          match batchTotal top_level_rules nested_rules cfg fs with
          | .error e => .error e
          | .ok m => .ok (n + m)

/-- The process exit status of `main`: 1 when no YAML files were found,
1 when the loop crashes (Python exits 1 on an uncaught exception) or the
error total is positive, 0 otherwise. -/
def mainExit (top_level_rules : List (String × String))
    (nested_rules : List (String × List (String × String)))
    (cfg : Config) (files : List (Except Unit Yaml)) : Nat :=
  if files.isEmpty then 1
  else
    match batchTotal top_level_rules nested_rules cfg files with
    | .error _ => 1
    | .ok n => if n > 0 then 1 else 0

/-- The status tag `main` prints for one file's results. -/
def reportTag (failures warnings : List String) : String :=
  if !failures.isEmpty then "[FAIL]"
  else if !warnings.isEmpty then "[WARN]"
  else "[OK]"

/-! ### Character-level lemmas -/

theorem toNat_ofNat_lt (n : Nat) (h : n < 55296) : (Char.ofNat n).toNat = n := by
  have hv : n.isValidChar := Or.inl h
  rw [Char.ofNat, dif_pos hv]
  rfl

theorem lowerChar_toNat (c : Char) :
    (lowerChar c).toNat =
      if 65 ≤ c.toNat ∧ c.toNat ≤ 90 then c.toNat + 32 else c.toNat := by
  unfold lowerChar
  by_cases h : 65 ≤ c.toNat ∧ c.toNat ≤ 90
  · rw [if_pos h, if_pos h, toNat_ofNat_lt]
    omega
  · rw [if_neg h, if_neg h]

theorem lowerChar_eq_self (c : Char) (h : ¬(65 ≤ c.toNat ∧ c.toNat ≤ 90)) :
    lowerChar c = c := by
  unfold lowerChar
  rw [if_neg h]

theorem lowerChar_idem (c : Char) : lowerChar (lowerChar c) = lowerChar c := by
  by_cases h : 65 ≤ c.toNat ∧ c.toNat ≤ 90
  · apply lowerChar_eq_self
    rw [lowerChar_toNat, if_pos h]
    omega
  · rw [lowerChar_eq_self c h, lowerChar_eq_self c h]

theorem isWS_lowerChar (c : Char) : isWS (lowerChar c) = isWS c := by
  unfold isWS
  rw [lowerChar_toNat]
  by_cases h : 65 ≤ c.toNat ∧ c.toNat ≤ 90
  · rw [if_pos h]
    rw [decide_eq_decide]
    omega
  · rw [if_neg h]

/-! ### Strip/lower lemmas -/

theorem dropWhile_idem (p : α → Bool) (l : List α) :
    (l.dropWhile p).dropWhile p = l.dropWhile p := by
  induction l with
  | nil => rfl
  | cons a as ih =>
    by_cases h : p a
    · rw [List.dropWhile_cons_of_pos h]; exact ih
    · rw [List.dropWhile_cons_of_neg h, List.dropWhile_cons_of_neg h]

theorem dropWhile_eq_self_of_all (p : α → Bool) (l : List α)
    (h : ∀ c ∈ l, p c = false) : l.dropWhile p = l := by
  cases l with
  | nil => rfl
  | cons a as =>
    exact List.dropWhile_cons_of_neg (by simp [h a (List.mem_cons_self a as)])

theorem map_eq_self_of_all (f : α → α) (l : List α)
    (h : ∀ c ∈ l, f c = c) : l.map f = l := by
  induction l with
  | nil => rfl
  | cons a as ih =>
    simp only [List.map_cons, h a (List.mem_cons_self a as)]
    rw [ih fun c hc => h c (List.mem_cons_of_mem a hc)]

theorem stripLeft_idem (l : List Char) : stripLeft (stripLeft l) = stripLeft l :=
  dropWhile_idem isWS l

theorem stripRight_idem (l : List Char) :
    stripRight (stripRight l) = stripRight l := by
  unfold stripRight
  rw [List.reverse_reverse, dropWhile_idem]

theorem length_dropWhile_le (p : α → Bool) (l : List α) :
    (l.dropWhile p).length ≤ l.length := by
  induction l with
  | nil => simp
  | cons a as ih =>
    by_cases h : p a
    · rw [List.dropWhile_cons_of_pos h]
      exact Nat.le_trans ih (by simp)
    · rw [List.dropWhile_cons_of_neg h]

theorem head_not_ws_of_stripLeft_eq (a : Char) (as : List Char)
    (h : stripLeft (a :: as) = a :: as) : isWS a = false := by
  by_contra hc
  have ha : isWS a = true := by
    cases hws : isWS a
    · exact absurd hws hc
    · rfl
  have h2 : List.dropWhile isWS as = a :: as := by
    have hstep : stripLeft (a :: as) = List.dropWhile isWS as := by
      unfold stripLeft
      exact List.dropWhile_cons_of_pos ha
    rw [← hstep, h]
  have hlen := length_dropWhile_le isWS as
  rw [h2] at hlen
  simp at hlen

theorem stripLeft_stripRight (m : List Char) (hm : stripLeft m = m) :
    stripLeft (stripRight m) = stripRight m := by
  cases m with
  | nil => rfl
  | cons a as =>
    have ha : isWS a = false := head_not_ws_of_stripLeft_eq a as hm
    unfold stripRight
    rw [List.reverse_cons, List.dropWhile_append]
    by_cases h : (as.reverse.dropWhile isWS).isEmpty = true
    · rw [if_pos h, List.dropWhile_cons_of_neg (by simp [ha]), List.reverse_singleton]
      unfold stripLeft
      exact List.dropWhile_cons_of_neg (by simp [ha])
    · rw [if_neg h, List.reverse_append, List.reverse_singleton, List.singleton_append]
      unfold stripLeft
      exact List.dropWhile_cons_of_neg (by simp [ha])

theorem stripChars_idem (l : List Char) :
    stripChars (stripChars l) = stripChars l := by
  unfold stripChars
  rw [stripLeft_stripRight (stripLeft l) (stripLeft_idem l), stripRight_idem]

theorem isWS_comp_lowerChar : isWS ∘ lowerChar = isWS :=
  funext isWS_lowerChar

theorem stripLeft_map_lower (l : List Char) :
    stripLeft (l.map lowerChar) = (stripLeft l).map lowerChar := by
  unfold stripLeft
  rw [List.dropWhile_map, isWS_comp_lowerChar]

theorem stripRight_map_lower (l : List Char) :
    stripRight (l.map lowerChar) = (stripRight l).map lowerChar := by
  unfold stripRight
  rw [← List.map_reverse, List.dropWhile_map, isWS_comp_lowerChar, List.map_reverse]

theorem stripChars_map_lower (l : List Char) :
    stripChars (l.map lowerChar) = (stripChars l).map lowerChar := by
  unfold stripChars
  rw [stripLeft_map_lower, stripRight_map_lower]

theorem map_lower_idem (l : List Char) :
    (l.map lowerChar).map lowerChar = l.map lowerChar := by
  rw [List.map_map]
  congr 1
  funext c
  exact lowerChar_idem c

/-- The composed normalization `s.strip().lower()` is idempotent. -/
theorem data_pyStrip (s : String) : (pyStrip s).data = stripChars s.data := rfl

theorem data_pyLower (s : String) : (pyLower s).data = s.data.map lowerChar := rfl

theorem strip_lower_idem (s : String) :
    pyLower (pyStrip (pyLower (pyStrip s))) = pyLower (pyStrip s) := by
  apply String.ext
  simp only [data_pyLower, data_pyStrip]
  rw [stripChars_map_lower, stripChars_idem, map_lower_idem]

/-! ### Strings left fixed by strip-and-lower -/

theorem digitChar_toNat (d : Nat) (h : d < 10) : (digitChar d).toNat = 48 + d := by
  unfold digitChar
  exact toNat_ofNat_lt (48 + d) (by omega)

theorem natCharsAux_bounds (fuel : Nat) :
    ∀ n, ∀ c ∈ natCharsAux fuel n, 48 ≤ c.toNat ∧ c.toNat ≤ 57 := by
  induction fuel with
  | zero =>
    intro n c hc
    simp [natCharsAux] at hc
  | succ f ih =>
    intro n c hc
    unfold natCharsAux at hc
    by_cases h : n < 10
    · rw [if_pos h] at hc
      rw [List.mem_singleton] at hc
      subst hc
      rw [digitChar_toNat n h]
      omega
    · rw [if_neg h] at hc
      rcases List.mem_append.mp hc with h1 | h2
      · exact ih (n / 10) c h1
      · rw [List.mem_singleton] at h2
        subst h2
        rw [digitChar_toNat (n % 10) (Nat.mod_lt n (by omega))]
        have := Nat.mod_lt n (y := 10) (by omega)
        omega

theorem natChars_bounds (n : Nat) :
    ∀ c ∈ natChars n, 48 ≤ c.toNat ∧ c.toNat ≤ 57 :=
  natCharsAux_bounds (n + 1) n

theorem fixed_char_of_bounds (c : Char)
    (h : (48 ≤ c.toNat ∧ c.toNat ≤ 57) ∨ c.toNat = 45) :
    isWS c = false ∧ lowerChar c = c := by
  constructor
  · unfold isWS
    simp only [decide_eq_false_iff_not]
    omega
  · exact lowerChar_eq_self c (by omega)

theorem pyStrInt_chars (i : Int) :
    ∀ c ∈ (pyStrInt i).data, isWS c = false ∧ lowerChar c = c := by
  unfold pyStrInt
  by_cases h : i < 0
  · rw [if_pos h]
    intro c hc
    rcases List.mem_cons.mp hc with h1 | h2
    · subst h1
      exact fixed_char_of_bounds _ (Or.inr (by decide))
    · exact fixed_char_of_bounds _ (Or.inl (natChars_bounds _ c h2))
  · rw [if_neg h]
    intro c hc
    exact fixed_char_of_bounds _ (Or.inl (natChars_bounds _ c hc))

theorem strip_lower_fixed (s : String)
    (h : ∀ c ∈ s.data, isWS c = false ∧ lowerChar c = c) :
    pyLower (pyStrip s) = s := by
  apply String.ext
  simp only [data_pyLower, data_pyStrip]
  have h1 : stripChars s.data = s.data := by
    unfold stripChars stripLeft stripRight
    rw [dropWhile_eq_self_of_all _ _ (fun c hc => (h c hc).1)]
    rw [dropWhile_eq_self_of_all _ _
      (fun c hc => (h c (List.mem_reverse.mp hc)).1)]
    exact List.reverse_reverse _
  rw [h1]
  exact map_eq_self_of_all _ _ (fun c hc => (h c hc).2)

theorem pyStrInt_fixed (i : Int) : pyLower (pyStrip (pyStrInt i)) = pyStrInt i :=
  strip_lower_fixed _ (pyStrInt_chars i)

/-! ### Claim theorems -/

/-- Claim C1: the claim says per-document validation never raises, but the
batch runner's auxiliary checks call `document.get("labels")` which raises
`AttributeError` whenever the parsed document is not a mapping (for example
`null` or a list), even though `validate_document` itself reports the
non-mapping root as an error message. -/
theorem claim_C1 :
    (∀ top nested cfg, docChecks top nested cfg Yaml.null = Except.error ()) ∧
    (∀ top nested cfg xs,
      docChecks top nested cfg (Yaml.list xs) = Except.error ()) ∧
    (∀ top nested, validate_document Yaml.null top nested =
      (["Document root must be a mapping"], [])) :=
  ⟨fun _ _ _ => rfl, fun _ _ _ _ => rfl, fun _ _ => rfl⟩

/-- Claim C5: `normalize_scalar` is idempotent (re-normalizing the produced
string changes nothing), and `true`, `"True"`, `"TRUE"` all normalize to
`"true"`. -/
theorem claim_C5 :
    (∀ v : Yaml,
      normalize_scalar (.str (normalize_scalar v)) = normalize_scalar v) ∧
    normalize_scalar (.bool true) = "true" ∧
    normalize_scalar (.str "True") = "true" ∧
    normalize_scalar (.str "TRUE") = "true" := by
  refine ⟨fun v => ?_, by decide, by decide, by decide⟩
  cases v with
  | null => decide
  | bool b => cases b <;> decide
  | int n => exact pyStrInt_fixed n
  | str s => exact strip_lower_idem s
  | list xs => exact strip_lower_idem _
  | tuple xs => exact strip_lower_idem _
  | set xs => exact strip_lower_idem _
  | dict kvs => exact strip_lower_idem _

/-- Claim C6: with the allow-list loaded from entries `prod` and `staging`
for `impact`, the value `PROD` passes (case-insensitive after
normalization), `dev` fails listing `prod, staging` in sorted order; a null
value is never checked; every list/tuple/set/mapping value yields the
"must be a scalar" error. -/
theorem claim_C6 :
    validate_allowed_value "impact" (.str "PROD")
      (normalizedAllowSet [.str "prod", .str "staging"]) = [] ∧
    validate_allowed_value "impact" (.str "dev")
      (normalizedAllowSet [.str "prod", .str "staging"]) =
      ["Value 'dev' for 'impact' must be one of: prod, staging"] ∧
    (∀ (key : String) (allowed : List String),
      validate_allowed_value key .null allowed = []) ∧
    (∀ (key : String) (allowed : List String) (xs : List Yaml),
      validate_allowed_value key (.list xs) allowed =
        ["Value for '" ++ key ++ "' must be a scalar"]) ∧
    (∀ (key : String) (allowed : List String) (xs : List Yaml),
      validate_allowed_value key (.tuple xs) allowed =
        ["Value for '" ++ key ++ "' must be a scalar"]) ∧
    (∀ (key : String) (allowed : List String) (xs : List Yaml),
      validate_allowed_value key (.set xs) allowed =
        ["Value for '" ++ key ++ "' must be a scalar"]) ∧
    (∀ (key : String) (allowed : List String) (kvs : List (String × Yaml)),
      validate_allowed_value key (.dict kvs) allowed =
        ["Value for '" ++ key ++ "' must be a scalar"]) := by
  refine ⟨by decide, by decide, fun _ _ => rfl, fun _ _ _ => rfl,
    fun _ _ _ => rfl, fun _ _ _ => rfl, fun _ _ _ => rfl⟩

/-- Claim C7: for the nested rule set `{name: mandatory}` under
`environments`, the value `[{other: 1}]` yields exactly the one error for
entry index 0 missing `name`, and `[]` yields exactly the one
at-least-one-entry error. -/
theorem claim_C7 :
    validate_nested "environments" (.list [.dict [("other", .int 1)]])
      [("name", "mandatory")] =
      ["Entry 0 under 'environments' is missing mandatory key 'name'"] ∧
    validate_nested "environments" (.list []) [("name", "mandatory")] =
      ["Key 'environments' must contain at least one entry"] :=
  ⟨by decide, by decide⟩

theorem validate_document_singleton (kvs : List (String × Yaml))
    (nested : List (String × List (String × String))) (r : String × String) :
    validate_document (.dict kvs) [r] nested = validateKey kvs nested r := by
  unfold validate_document
  simp [List.foldl]

/-- Claim C2 counterexample: the claim includes the case where `end_date`
is entirely absent, but then `validate_document` does emit the
missing-mandatory-key error (the blank exemption at line 239 requires
`key in content`). -/
theorem claim_C2_counterexample :
    validate_document (.dict []) [("end_date", "mandatory")] [] =
      (["Missing or empty mandatory key 'end_date'"], []) := by
  decide

/-- Claim C2 (amended): when `end_date` is mandatory and the document
contains the key with a blank value (null, or a string stripping-lowering
to empty or `null`), no error is emitted; an entirely absent `end_date`
instead does produce the missing-mandatory-key error. -/
theorem claim_C2 (kvs : List (String × Yaml))
    (nested : List (String × List (String × String))) (v : Yaml)
    (hl : lookupA kvs "end_date" = some v)
    (hb : allows_blank_value "end_date" v = true)
    (hn : lookupA nested "end_date" = none) :
    validate_document (.dict kvs) [("end_date", "mandatory")] nested =
      ([], []) := by
  rw [validate_document_singleton]
  unfold validateKey
  simp only [hl, hn, Option.isSome_some, Option.getD_some, Bool.true_and,
    beq_self_eq_true]
  by_cases hv : has_value v = true
  · rw [hv]
    simp
  · have hv2 : has_value v = false := by
      cases h : has_value v
      · rfl
      · exact absurd h hv
    rw [hv2]
    simp [OPTIONAL_WARN_KEYS, hb]

/-- Claim C2 witness: the amended statement applied at the concrete
document `{end_date: null}`. -/
theorem claim_C2_witness :
    lookupA [("end_date", Yaml.null)] "end_date" = some Yaml.null ∧
    allows_blank_value "end_date" Yaml.null = true ∧
    validate_document (.dict [("end_date", Yaml.null)])
      [("end_date", "mandatory")] [] = ([], []) :=
  ⟨rfl, by decide, claim_C2 [("end_date", Yaml.null)] [] Yaml.null rfl
    (by decide) rfl⟩

/-- Claim C3: a soft-warning key (`labels`, `specs`, `epic_resources`)
marked mandatory but absent or failing the presence test yields a warning,
not an error; a document whose only findings are such keys has zero errors
and is reported `[WARN]`. -/
theorem claim_C3 :
    (∀ (kvs : List (String × Yaml))
       (nested : List (String × List (String × String))) (k : String),
       k ∈ OPTIONAL_WARN_KEYS →
       ((lookupA kvs k).isSome && has_value ((lookupA kvs k).getD .null))
         = false →
       validate_document (.dict kvs) [(k, "mandatory")] nested =
         ([], ["Optional key '" ++ k ++ "' is missing or empty"])) ∧
    (∀ cfg : Config,
      docChecks [("labels", "mandatory"), ("specs", "mandatory"),
          ("epic_resources", "mandatory")] [] cfg (.dict []) =
        .ok ([], ["Optional key 'labels' is missing or empty",
                  "Optional key 'specs' is missing or empty",
                  "Optional key 'epic_resources' is missing or empty"])) ∧
    reportTag [] ["Optional key 'labels' is missing or empty",
        "Optional key 'specs' is missing or empty",
        "Optional key 'epic_resources' is missing or empty"] = "[WARN]" := by
  refine ⟨fun kvs nested k hk hp => ?_, fun cfg => rfl, rfl⟩
  rw [validate_document_singleton]
  unfold validateKey
  simp only [beq_self_eq_true, Bool.true_and, hp, Bool.not_false, if_true]
  rw [List.contains_eq_any_beq]
  have hc : OPTIONAL_WARN_KEYS.any (k == ·) = true := by
    simp only [OPTIONAL_WARN_KEYS, List.mem_cons, List.not_mem_nil,
      or_false] at hk
    rcases hk with h | h | h <;> subst h <;> decide
  rw [hc]
  simp

/-- Claim C3 witness: the general part applied to the empty document and
the key `labels`. -/
theorem claim_C3_witness :
    "labels" ∈ OPTIONAL_WARN_KEYS ∧
    ((lookupA ([] : List (String × Yaml)) "labels").isSome &&
      has_value ((lookupA ([] : List (String × Yaml)) "labels").getD .null))
      = false ∧
    validate_document (.dict []) [("labels", "mandatory")] [] =
      ([], ["Optional key 'labels' is missing or empty"]) :=
  ⟨by decide, rfl, claim_C3.1 [] [] "labels" (by decide) rfl⟩

/-- Claim C10: `allows_blank_value key v` holds exactly when `key` is
`end_date` and `v` is null or a string whose stripped lower-cased form is
empty or `null`; in particular `"NULL"` and `"  Null  "` are exempt and
every non-string non-null value (and every other key) is not. -/
theorem claim_C10 :
    (∀ (key : String) (v : Yaml),
      allows_blank_value key v = true ↔
        (key = "end_date" ∧
          (v = Yaml.null ∨ ∃ s, v = Yaml.str s ∧
            (pyLower (pyStrip s) = "" ∨ pyLower (pyStrip s) = "null")))) ∧
    allows_blank_value "end_date" (.str "NULL") = true ∧
    allows_blank_value "end_date" (.str "  Null  ") = true := by
  refine ⟨fun key v => ?_, by decide, by decide⟩
  unfold allows_blank_value
  by_cases hk : key = "end_date"
  · subst hk
    cases v <;> simp
  · have hb : (key == "end_date") = false := by
      simp [hk]
    rw [hb]
    simp [hk]

/-- Claim C4 counterexample: the line `- foo: mandatory` sits at
indentation 0 and does not match the key:status pattern, yet after a
top-level `p : mandatory` line it adds a nested rule under `p` instead of
being ignored. -/
theorem claim_C4_counterexample :
    indentOf "- foo: mandatory" = 0 ∧
    matchStatus (pyStrip "- foo: mandatory") = none ∧
    parse_template ["p : mandatory", "- foo: mandatory"] =
      ([("p", "mandatory")], [("p", [("foo", "mandatory")])]) :=
  ⟨by decide, by decide, by decide⟩

/-- Claim C4 (amended): a line that does not match the top-level
key:status pattern is ignored (state unchanged) when no parent is active;
when a parent is active, an indentation-0 non-matching line is processed
exactly like an indented line and can add nested rules. -/
theorem claim_C4 :
    (∀ (st : PState) (raw : String), st.parent = none → st.listParent = none →
      ¬(indentOf raw = 0 ∧ (matchStatus (pyStrip raw)).isSome = true) →
      pstep st raw = st) ∧
    (∀ (st : PState) (raw : String), pyStrip raw ≠ "" → indentOf raw = 0 →
      matchStatus (pyStrip raw) = none →
      pstep st raw = pstepIndented st (pyStrip raw)) := by
  constructor
  · intro st raw hpar hlp hno
    have horelse : st.listParent.orElse (fun _ => st.parent) = none := by
      rw [hlp, hpar]
      rfl
    have hind : ∀ x, pstepIndented st x = st := by
      intro x
      unfold pstepIndented
      rw [horelse]
    unfold pstep
    by_cases he : (pyStrip raw == "") = true
    · rw [if_pos he]
    · rw [if_neg he]
      by_cases hi : (indentOf raw == 0) = true
      · rw [if_pos hi]
        cases hm : matchStatus (pyStrip raw) with
        | none => exact hind _
        | some ks =>
          exact absurd ⟨by simpa using hi, by rw [hm]; rfl⟩ hno
      · rw [if_neg hi]
        exact hind _
  · intro st raw hne hi hm
    unfold pstep
    have he : (pyStrip raw == "") = false := by
      simp [hne]
    have hi2 : (indentOf raw == 0) = true := by
      simp [hi]
    rw [he, hi2]
    simp only [Bool.false_eq_true, if_false, if_true]
    rw [hm]

/-- Claim C4 witness: with no active parent, the indented line
`  b : optional` leaves the initial parser state unchanged. -/
theorem claim_C4_witness :
    initPState.parent = none ∧ initPState.listParent = none ∧
    ¬(indentOf "  b : optional" = 0 ∧
      (matchStatus (pyStrip "  b : optional")).isSome = true) ∧
    pstep initPState "  b : optional" = initPState :=
  ⟨rfl, rfl, by decide,
    claim_C4.1 initPState "  b : optional" rfl rfl (by decide)⟩

theorem batchTotal_zero_parsed (top : List (String × String))
    (nested : List (String × List (String × String))) (cfg : Config) :
    ∀ files, batchTotal top nested cfg files = .ok 0 →
      ∀ f ∈ files, ∃ d, f = Except.ok d := by
  intro files
  induction files with
  | nil =>
    intro _ f hf
    exact absurd hf (List.not_mem_nil f)
  | cons f fs ih =>
    intro h g hg
    unfold batchTotal at h
    cases hfo : fileOutcome top nested cfg f with
    | error e =>
      rw [hfo] at h
      exact absurd h (by simp)
    | ok n =>
      rw [hfo] at h
      cases hbt : batchTotal top nested cfg fs with
      | error e =>
        rw [hbt] at h
        exact absurd h (by simp)
      | ok m =>
        rw [hbt] at h
        have hnm : n + m = 0 := by
          have := Except.ok.injEq (ε := Unit) (n + m) 0 ▸ h
          simpa using h
        rcases List.mem_cons.mp hg with rfl | hgs
        · cases g with
          | error e =>
            have : (1 : Nat) = n := by
              have h1 : fileOutcome top nested cfg (Except.error e) = .ok 1 := rfl
              rw [h1] at hfo
              simpa using hfo
            omega
          | ok d => exact ⟨d, rfl⟩
        · exact ih (by rw [hbt]; congr 1; omega) g hgs

/-- Claim C8: the batch exit status is zero exactly when at least one file
was found, every file parsed, and the accumulated error total is zero;
warnings never enter the total, and a parse failure contributes exactly
one error. -/
theorem claim_C8 (top : List (String × String))
    (nested : List (String × List (String × String))) (cfg : Config)
    (files : List (Except Unit Yaml)) :
    (mainExit top nested cfg files = 0 ↔
      (files ≠ [] ∧ (∀ f ∈ files, ∃ d, f = Except.ok d) ∧
        batchTotal top nested cfg files = .ok 0)) ∧
    fileOutcome top nested cfg (Except.error ()) = .ok 1 := by
  refine ⟨⟨?_, ?_⟩, rfl⟩
  · intro h
    unfold mainExit at h
    by_cases hf : files.isEmpty = true
    · rw [if_pos hf] at h
      exact absurd h one_ne_zero
    · rw [if_neg hf] at h
      cases hbt : batchTotal top nested cfg files with
      | error e =>
        rw [hbt] at h
        exact absurd h one_ne_zero
      | ok n =>
        rw [hbt] at h
        have h2 : (if n > 0 then (1 : Nat) else 0) = 0 := h
        have hn : n = 0 := by
          by_cases h0 : n > 0
          · rw [if_pos h0] at h2
            exact absurd h2 one_ne_zero
          · omega
        refine ⟨by simpa [List.isEmpty_iff] using hf, ?_, ?_⟩
        · exact batchTotal_zero_parsed top nested cfg files (by rw [hbt, hn])
        · rw [hn]
  · rintro ⟨hne, _, hbt⟩
    unfold mainExit
    rw [if_neg (by simpa [List.isEmpty_iff] using hne), hbt]
    simp

/-! ### The parser invariant behind claim C9 -/

/-- Invariant of `parse_template`'s loop: every nested parent and both
parent trackers point at keys already present in the top-level table. -/
def PInv (st : PState) : Prop :=
  (∀ p ∈ keysA st.nested, p ∈ keysA st.top) ∧
  (∀ k, st.parent = some k → k ∈ keysA st.top) ∧
  (∀ k, st.listParent = some k → k ∈ keysA st.top)

theorem mem_keysA_setA_self {α : Type} (m : List (String × α)) (k : String)
    (v : α) : k ∈ keysA (setA m k v) := by
  induction m with
  | nil => simp [setA, keysA]
  | cons kv rest ih =>
    obtain ⟨k2, w⟩ := kv
    unfold setA
    by_cases h : (k2 == k) = true
    · rw [if_pos h]
      simp only [keysA, List.map_cons, List.mem_cons]
      exact Or.inl (eq_of_beq h).symm
    · rw [if_neg h]
      simp only [keysA, List.map_cons, List.mem_cons]
      exact Or.inr ih

theorem mem_keysA_setA_of_mem {α : Type} {m : List (String × α)} {p : String}
    (k : String) (v : α) (h : p ∈ keysA m) : p ∈ keysA (setA m k v) := by
  induction m with
  | nil => exact absurd h (by simp [keysA])
  | cons kv rest ih =>
    obtain ⟨k2, w⟩ := kv
    unfold setA
    by_cases hk : (k2 == k) = true
    · rw [if_pos hk]
      simpa [keysA] using h
    · rw [if_neg hk]
      simp only [keysA, List.map_cons, List.mem_cons] at h ⊢
      rcases h with h | h
      · exact Or.inl h
      · exact Or.inr (ih h)

theorem mem_keysA_setA_cases {α : Type} {m : List (String × α)}
    {p k : String} {v : α} (h : p ∈ keysA (setA m k v)) :
    p ∈ keysA m ∨ p = k := by
  induction m with
  | nil =>
    simp [setA, keysA] at h
    exact Or.inr h
  | cons kv rest ih =>
    obtain ⟨k2, w⟩ := kv
    unfold setA at h
    by_cases hk : (k2 == k) = true
    · rw [if_pos hk] at h
      exact Or.inl (by simpa [keysA] using h)
    · rw [if_neg hk] at h
      simp only [keysA, List.map_cons, List.mem_cons] at h ⊢
      rcases h with h | h
      · exact Or.inl (Or.inl h)
      · rcases ih h with h2 | h2
        · exact Or.inl (Or.inr h2)
        · exact Or.inr h2

theorem keysA_append {α : Type} (m m2 : List (String × α)) :
    keysA (m ++ m2) = keysA m ++ keysA m2 :=
  List.map_append _ _ _

theorem mem_keysA_setNested_cases
    {m : List (String × List (String × String))} {p parent c s : String}
    (h : p ∈ keysA (setNested m parent c s)) : p ∈ keysA m ∨ p = parent := by
  unfold setNested at h
  cases hl : lookupA m parent with
  | some inner =>
    rw [hl] at h
    exact mem_keysA_setA_cases h
  | none =>
    rw [hl] at h
    rw [keysA_append] at h
    rcases List.mem_append.mp h with h2 | h2
    · exact Or.inl h2
    · exact Or.inr (by simpa [keysA] using h2)

theorem pstepAttach_inv (st : PState) (stripped parent : String)
    (hpar : parent ∈ keysA st.top) (h : PInv st) :
    PInv (pstepAttach st stripped parent) := by
  unfold pstepAttach
  by_cases hd : startsDash stripped = true
  · rw [if_pos hd]
    cases hm : matchStatus (pyStrip (dropTwo stripped)) with
    | none => exact h
    | some ks =>
      obtain ⟨k, s⟩ := ks
      refine ⟨?_, h.2.1, ?_⟩
      · intro p hpm
        rcases mem_keysA_setNested_cases hpm with h1 | h1
        · exact h.1 p h1
        · exact h1 ▸ hpar
      · intro k2 hk2
        have : parent = k2 := by simpa using hk2
        exact this ▸ hpar
  · rw [if_neg hd]
    cases hm : matchStatus stripped with
    | none => exact h
    | some ks =>
      obtain ⟨k, s⟩ := ks
      refine ⟨?_, h.2.1, h.2.2⟩
      intro p hpm
      rcases mem_keysA_setNested_cases hpm with h1 | h1
      · exact h.1 p h1
      · exact h1 ▸ hpar

theorem pstepIndented_inv (st : PState) (stripped : String) (h : PInv st) :
    PInv (pstepIndented st stripped) := by
  unfold pstepIndented
  cases hp : st.listParent.orElse (fun _ => st.parent) with
  | none => exact h
  | some parent =>
    have hpar : parent ∈ keysA st.top := by
      cases hlp : st.listParent with
      | some x =>
        have hx : x = parent := by
          rw [hlp] at hp
          simpa [Option.orElse] using hp
        exact hx ▸ h.2.2 x hlp
      | none =>
        have hx : st.parent = some parent := by
          rw [hlp] at hp
          simpa [Option.orElse] using hp
        exact h.2.1 parent hx
    exact pstepAttach_inv st stripped parent hpar h

theorem pstep_inv (st : PState) (raw : String) (h : PInv st) :
    PInv (pstep st raw) := by
  unfold pstep
  by_cases he : (pyStrip raw == "") = true
  · rw [if_pos he]
    exact h
  · rw [if_neg he]
    by_cases hi : (indentOf raw == 0) = true
    · rw [if_pos hi]
      cases hm : matchStatus (pyStrip raw) with
      | none => exact pstepIndented_inv st _ h
      | some ks =>
        obtain ⟨key, status⟩ := ks
        refine ⟨?_, ?_, ?_⟩
        · intro p hpm
          exact mem_keysA_setA_of_mem key status (h.1 p hpm)
        · intro k hk
          have : key = k := by simpa using hk
          exact this ▸ mem_keysA_setA_self st.top key status
        · intro k hk
          exact absurd hk (by simp)
    · rw [if_neg hi]
      exact pstepIndented_inv st _ h

theorem foldl_pstep_inv (lines : List String) (st : PState) (h : PInv st) :
    PInv (lines.foldl pstep st) := by
  induction lines generalizing st with
  | nil => exact h
  | cons l ls ih => exact ih _ (pstep_inv st l h)

/-- Claim C9: every parent key appearing in the nested rule table returned
by `parse_template` also appears as a key of the top-level rule table. -/
theorem claim_C9 (lines : List String) (p : String)
    (hp : p ∈ keysA (parse_template lines).2) :
    p ∈ keysA (parse_template lines).1 := by
  have h0 : PInv initPState :=
    ⟨fun p hp => by simp [initPState, keysA] at hp,
     fun k hk => by simp [initPState] at hk,
     fun k hk => by simp [initPState] at hk⟩
  have h := foldl_pstep_inv lines initPState h0
  unfold parse_template at hp ⊢
  exact h.1 p hp

/-- Claim C9 witness: for a template with one top-level key and one nested
line, the nested parent `a` indeed appears in the top-level table. -/
theorem claim_C9_witness :
    "a" ∈ keysA (parse_template ["a : mandatory", "  b : optional"]).2 ∧
    "a" ∈ keysA (parse_template ["a : mandatory", "  b : optional"]).1 :=
  ⟨by decide, claim_C9 ["a : mandatory", "  b : optional"] "a" (by decide)⟩

end WafValidate
